import Mathlib

/-!
# Verification of the Hercules client-side store / search core

A shallow embedding of the persistence adapters, entity stores, catalog
search scorer and derived utilities of the Hercules fitness-tracking app,
together with proofs of the behavioural claims made by its specification.

Modelling conventions:
* JavaScript numbers that only ever hold integral values are modelled as
  `Int` (or `Nat` for scores, which are sums of non-negative weights).
* `JSON.stringify` / `JSON.parse` round-trips on the plain record types used
  here are the identity, so a durable key-value slot is modelled as an
  `Option` of a structured payload instead of a string; `none` models an
  absent (or empty / `null`) slot value.
* Asynchronous persistence is modelled by explicit state passing: each store
  operation first performs its synchronous in-memory step and then threads
  the storage environment through the (modelled) persist call.
* Text handling is restricted to ASCII, on which the source's NFKD
  normalization and combining-mark stripping are the identity.
-/

namespace Hercules

/-! ## String utilities (from `src/utils/strings.ts`)

`normalizeSearchText` lower-cases, replaces every character outside
`[a-z0-9\s]` by a space, collapses whitespace runs to single spaces and
trims.  The NFKD-normalization / diacritic-stripping steps of the source
only affect non-ASCII characters and are modelled as the identity, the
embedding being restricted to ASCII catalog text. -/

/-- JavaScript `toLowerCase` restricted to ASCII letters. -/
def lowerChar (c : Char) : Char :=
  if 'A' ≤ c ∧ c ≤ 'Z' then Char.ofNat (c.toNat + 32) else c

/-- Characters kept verbatim by the `[^a-z0-9\s]` replacement. -/
def isSearchKeep (c : Char) : Bool :=
  ('a' ≤ c && c ≤ 'z') || ('0' ≤ c && c ≤ '9')

/-- The ASCII members of the regex whitespace class `\s`. -/
def isJsSpace (c : Char) : Bool :=
  c = ' ' || c = '\t' || c = '\n' || c = '\r' || c = '\x0b' || c = '\x0c'

/-- First pass of `normalizeSearchText`: lower-case, then replace every
character that is neither `[a-z0-9]` nor whitespace by a space. -/
def normalizePass (cs : List Char) : List Char :=
  cs.map (fun c =>
    let c := lowerChar c
    if isSearchKeep c || isJsSpace c then c else ' ')

/-- Helper for `splitWords`: `acc` holds the reversed characters of the word
currently being read. -/
def splitWordsAux : List Char → List Char → List (List Char)
  | [], acc => if acc.isEmpty then [] else [acc.reverse]
  | c :: rest, acc =>
    if isJsSpace c then
      if acc.isEmpty then splitWordsAux rest []
      else acc.reverse :: splitWordsAux rest []
    else splitWordsAux rest (c :: acc)

/-- Split a character list into its maximal whitespace-free words. -/
def splitWords (cs : List Char) : List (List Char) :=
  splitWordsAux cs []

/-- The `normalizeSearchText` from `src/utils/strings.ts` (ASCII fragment):
the `\s+ → ' '` collapse plus `trim` amount to joining the whitespace-free
words with single spaces. -/
def normalizeSearchText (s : String) : String :=
  String.mk (List.intercalate [' '] (splitWords (normalizePass s.data)))

/-- JavaScript `String.prototype.includes`. -/
def jsIncludes (s : String) (token : String) : Bool :=
  decide (token.data <:+: s.data)

/-- JavaScript `String.prototype.startsWith`. -/
def jsStartsWith (s : String) (token : String) : Bool :=
  token.data.isPrefixOf s.data

/-! ## Entity data model

From `src/frontend/src/types/{schedule,plan}.ts` and the workout type
module.  `ScheduleWeekdayAssignment` maps each of the seven weekday keys to
an optional plan-id reference. -/

/-- The seven weekday keys of `ScheduleDayKey`. -/
inductive ScheduleDayKey where
  | monday | tuesday | wednesday | thursday | friday | saturday | sunday
deriving DecidableEq

/-- The `ScheduleWeekdayAssignment`: nullable plan-id reference per weekday. -/
structure ScheduleWeekdayAssignment where
  monday : Option String
  tuesday : Option String
  wednesday : Option String
  thursday : Option String
  friday : Option String
  saturday : Option String
  sunday : Option String
deriving DecidableEq

/-- Read one weekday slot of a `ScheduleWeekdayAssignment`. -/
def ScheduleWeekdayAssignment.get (w : ScheduleWeekdayAssignment) :
    ScheduleDayKey → Option String
  | .monday => w.monday
  | .tuesday => w.tuesday
  | .wednesday => w.wednesday
  | .thursday => w.thursday
  | .friday => w.friday
  | .saturday => w.saturday
  | .sunday => w.sunday

/-- The `Schedule` from `src/frontend/src/types/schedule.ts`. -/
structure Schedule where
  id : String
  name : String
  weekdays : ScheduleWeekdayAssignment
deriving DecidableEq

/-- The `PlanExercise` from `src/frontend/src/types/plan.ts`. -/
structure PlanExercise where
  id : String
  name : String
  sets : Int
deriving DecidableEq

/-- The `WorkoutPlan` from `src/frontend/src/types/plan.ts`. -/
structure WorkoutPlan where
  id : String
  name : String
  exercises : List PlanExercise
  createdAt : String
deriving DecidableEq

/-- A normalized `SetLog` (workout type module): `reps`/`weight` are JS
numbers holding integral values, modelled as `Int`. -/
structure SetLog where
  reps : Int
  weight : Int
  completed : Bool
deriving DecidableEq

/-- A normalized `WorkoutExercise`. -/
structure WorkoutExercise where
  name : String
  sets : List SetLog
deriving DecidableEq

/-- A normalized `Workout` (logged session). -/
structure Workout where
  id : String
  planId : Option String
  date : String
  startTime : Int
  endTime : Option Int
  duration : Option Int
  exercises : List WorkoutExercise
deriving DecidableEq

/-! ### Raw (persisted) workout shapes

`JSON.parse` of a workouts payload is only cast, not validated, so nested
set fields can hold arbitrary JSON values.  `JsVal` is the fragment of JSON
scalar values needed to express the source's `typeof`/`Boolean` probes
(`NaN`, which is also falsy, is outside the `Int` model). -/

/-- A raw JSON scalar value as found in a persisted set record. -/
inductive JsVal where
  | num (n : Int)
  | str (s : String)
  | bool (b : Bool)
  | null
  | undefined
deriving DecidableEq

/-- JavaScript `typeof v === 'number'`. -/
def JsVal.isNumber : JsVal → Bool
  | .num _ => true
  | _ => false

/-- JavaScript `Boolean(v)` truthiness. -/
def JsVal.truthy : JsVal → Bool
  | .num n => n ≠ 0
  | .str s => s ≠ ""
  | .bool b => b
  | .null => false
  | .undefined => false

/-- A persisted set record before hydration: any scalar shape. -/
structure RawSetLog where
  reps : JsVal
  weight : JsVal
  completed : JsVal
deriving DecidableEq

/-- A persisted workout exercise before hydration; `sets = none` models a
missing or non-array `sets` field. -/
structure RawWorkoutExercise where
  name : String
  sets : Option (List RawSetLog)
deriving DecidableEq

/-- A persisted workout before hydration; `exercises = none` models a
missing or non-array `exercises` field.  Scalar fields are passed through
untouched by hydration and are kept at their nominal types. -/
structure RawWorkout where
  id : String
  planId : Option String
  date : String
  startTime : Int
  endTime : Option Int
  duration : Option Int
  exercises : Option (List RawWorkoutExercise)
deriving DecidableEq

/-! ## Durable storage model

`AsyncStorage` holds at most one value per key; each adapter module uses a
single fixed key, so the environment of an adapter is one slot plus the
environment/failure flags.  A stored string either JSON-parses to an array
of records (`arr`), parses to some non-array value (`notArray`) or fails to
parse (`unparseable`); `none` models an absent, `null` or empty value (all
rejected by the source's `!value` guard). -/

/-- Generic shape of one adapter's stored payload. -/
inductive Payload (α : Type) where
  | arr (items : List α)
  | notArray
  | unparseable
deriving DecidableEq

/-- A thrown JS error: either the underlying storage error propagated
unchanged (`raw`), or a typed error with a fixed message (`msg`). -/
inductive StoreEx where
  | raw
  | msg (s : String)
deriving DecidableEq

/-- One adapter's view of the world: the `canUseAsyncStorage()` environment
guard, whether the underlying `getItem`/`setItem` calls throw, and the slot
contents. -/
structure KVSlot (α : Type) where
  available : Bool
  readFails : Bool
  writeFails : Bool
  slot : Option (Payload α)
deriving DecidableEq

/-! ## Schedule persistence adapter (`src/frontend/src/utils/scheduleStorage.ts`) -/

/-- The `parseSchedules`: `!value` → `[]`; parse failure → `[]` (logged);
non-array → `[]`; otherwise keep entries whose `id` is truthy. -/
def parseSchedules : Option (Payload Schedule) → List Schedule
  | none => []
  | some .unparseable => []
  | some .notArray => []
  | some (.arr parsed) => parsed.filter (fun schedule => schedule.id ≠ "")

/-- The `loadStoredSchedules`: environment guard, then `getItem` (a throw is
caught and degrades to `[]`), then `parseSchedules`. -/
def loadStoredSchedules (env : KVSlot Schedule) : List Schedule :=
  if !env.available then []
  else if env.readFails then []
  else parseSchedules env.slot

/-- The `persistStoredSchedules`: environment guard (warn + no-op), then a
single `setItem` of the serialized collection; a throw is re-raised as the
typed error `Unable to persist schedules`. -/
def persistStoredSchedules (env : KVSlot Schedule) (schedules : List Schedule) :
    KVSlot Schedule × Except StoreEx Unit :=
  if !env.available then (env, .ok ())
  else if env.writeFails then (env, .error (.msg "Unable to persist schedules"))
  else ({ env with slot := some (.arr schedules) }, .ok ())

/-! ## Workout-session persistence adapter (workout session storage module)

Persisting serializes normalized workouts; re-reading the serialized form
yields the corresponding raw shapes, via `Workout.toRaw`. -/

/-- The raw (JSON) image of a normalized set log. -/
def SetLog.toRaw (s : SetLog) : RawSetLog :=
  { reps := .num s.reps, weight := .num s.weight, completed := .bool s.completed }

/-- The raw (JSON) image of a normalized workout exercise. -/
def WorkoutExercise.toRaw (e : WorkoutExercise) : RawWorkoutExercise :=
  { name := e.name, sets := some (e.sets.map SetLog.toRaw) }

/-- The raw (JSON) image of a normalized workout. -/
def Workout.toRaw (w : Workout) : RawWorkout :=
  { id := w.id, planId := w.planId, date := w.date, startTime := w.startTime,
    endTime := w.endTime, duration := w.duration,
    exercises := some (w.exercises.map WorkoutExercise.toRaw) }

/-- The `parseWorkouts`: same shape as `parseSchedules`. -/
def parseWorkouts : Option (Payload RawWorkout) → List RawWorkout
  | none => []
  | some .unparseable => []
  | some .notArray => []
  | some (.arr parsed) => parsed.filter (fun workout => workout.id ≠ "")

/-- The `loadStoredWorkoutSessions`. -/
def loadStoredWorkoutSessions (env : KVSlot RawWorkout) : List RawWorkout :=
  if !env.available then []
  else if env.readFails then []
  else parseWorkouts env.slot

/-- The `persistStoredWorkoutSessions`: a write failure raises the typed error
`Unable to persist workouts`. -/
def persistStoredWorkoutSessions (env : KVSlot RawWorkout) (workouts : List Workout) :
    KVSlot RawWorkout × Except StoreEx Unit :=
  if !env.available then (env, .ok ())
  else if env.writeFails then (env, .error (.msg "Unable to persist workouts"))
  else ({ env with slot := some (.arr (workouts.map Workout.toRaw)) }, .ok ())

/-- The `clearStoredWorkoutSessions`: `removeItem`; a failure raises the typed
error `Unable to clear stored workouts`. -/
def clearStoredWorkoutSessions (env : KVSlot RawWorkout) :
    KVSlot RawWorkout × Except StoreEx Unit :=
  if !env.available then (env, .ok ())
  else if env.writeFails then (env, .error (.msg "Unable to clear stored workouts"))
  else ({ env with slot := none }, .ok ())

/-! ## Plans persistence (`@/utils/storage`, plans slice) -/

/-- The `parsePlans`: same shape as `parseSchedules`. -/
def parsePlans : Option (Payload WorkoutPlan) → List WorkoutPlan
  | none => []
  | some .unparseable => []
  | some .notArray => []
  | some (.arr parsed) => parsed.filter (fun plan => plan.id ≠ "")

/-- The `getPlans`: environment guard, `getItem` (throw degrades to `[]`),
`parsePlans`. -/
def getPlans (env : KVSlot WorkoutPlan) : List WorkoutPlan :=
  if !env.available then []
  else if env.readFails then []
  else parsePlans env.slot

/-- The `savePlan`: read the existing collection (via `getPlans`, which never
throws), drop any plan with the same id, append the new plan at the end and
overwrite the slot; a write failure re-raises the underlying error. -/
def savePlan (plan : WorkoutPlan) (env : KVSlot WorkoutPlan) :
    KVSlot WorkoutPlan × Except StoreEx Unit :=
  if !env.available then (env, .ok ())
  else
    let existingPlans := getPlans env
    let filteredPlans := existingPlans.filter (fun existing => existing.id ≠ plan.id)
    let updatedPlans := filteredPlans ++ [plan]
    if env.writeFails then (env, .error .raw)
    else ({ env with slot := some (.arr updatedPlans) }, .ok ())

/-! ## Schedules store (`src/frontend/src/store/schedulesStore.ts`)

Each mutating operation synchronously computes the next in-memory value
`next`, publishes it via `set` (the `...Next` definitions), then awaits the
persist call; a persist error is caught and logged (the returned `Bool`
flags the `console.error` call) and the in-memory value is left as `next`.
An operation therefore returns `(items, env, loggedError)`. -/

/-- The synchronous in-memory step of `addSchedule`:
`[schedule, ...get().schedules]`. -/
def addScheduleNext (schedule : Schedule) (schedules : List Schedule) : List Schedule :=
  schedule :: schedules

/-- The synchronous in-memory step of `deleteSchedule`. -/
def deleteScheduleNext (id : String) (schedules : List Schedule) : List Schedule :=
  schedules.filter (fun schedule => schedule.id ≠ id)

/-- The synchronous in-memory step of `updateSchedule`: replace the
element whose `id` matches, keep everything else. -/
def updateScheduleNext (schedule : Schedule) (schedules : List Schedule) : List Schedule :=
  schedules.map (fun existing => if existing.id = schedule.id then schedule else existing)

/-- The `addSchedule`: memory update, then best-effort persist. -/
def addSchedule (schedule : Schedule) (schedules : List Schedule) (env : KVSlot Schedule) :
    List Schedule × KVSlot Schedule × Bool :=
  let next := addScheduleNext schedule schedules
  match persistStoredSchedules env next with
  | (env, .ok _) => (next, env, false)
  | (env, .error _) => (next, env, true)

/-- The `deleteSchedule`: memory update, then best-effort persist. -/
def deleteSchedule (id : String) (schedules : List Schedule) (env : KVSlot Schedule) :
    List Schedule × KVSlot Schedule × Bool :=
  let next := deleteScheduleNext id schedules
  match persistStoredSchedules env next with
  | (env, .ok _) => (next, env, false)
  | (env, .error _) => (next, env, true)

/-- The `updateSchedule`: memory update, then best-effort persist. -/
def updateSchedule (schedule : Schedule) (schedules : List Schedule) (env : KVSlot Schedule) :
    List Schedule × KVSlot Schedule × Bool :=
  let next := updateScheduleNext schedule schedules
  match persistStoredSchedules env next with
  | (env, .ok _) => (next, env, false)
  | (env, .error _) => (next, env, true)

/-! ## Workout-sessions store (workout sessions store module) -/

/-- The synchronous in-memory step of `addWorkout`:
`[workout, ...get().workouts]`. -/
def addWorkoutNext (workout : Workout) (workouts : List Workout) : List Workout :=
  workout :: workouts

/-- The synchronous in-memory step of `updateWorkout`. -/
def updateWorkoutNext (workout : Workout) (workouts : List Workout) : List Workout :=
  workouts.map (fun existing => if existing.id = workout.id then workout else existing)

/-- The synchronous in-memory step of `deleteWorkout`. -/
def deleteWorkoutNext (id : String) (workouts : List Workout) : List Workout :=
  workouts.filter (fun workout => workout.id ≠ id)

/-- The `addWorkout`: memory update, then best-effort persist. -/
def addWorkout (workout : Workout) (workouts : List Workout) (env : KVSlot RawWorkout) :
    List Workout × KVSlot RawWorkout × Bool :=
  let next := addWorkoutNext workout workouts
  match persistStoredWorkoutSessions env next with
  | (env, .ok _) => (next, env, false)
  | (env, .error _) => (next, env, true)

/-- The `updateWorkout`: memory update, then best-effort persist. -/
def updateWorkout (workout : Workout) (workouts : List Workout) (env : KVSlot RawWorkout) :
    List Workout × KVSlot RawWorkout × Bool :=
  let next := updateWorkoutNext workout workouts
  match persistStoredWorkoutSessions env next with
  | (env, .ok _) => (next, env, false)
  | (env, .error _) => (next, env, true)

/-- The `deleteWorkout`: memory update, then best-effort persist. -/
def deleteWorkout (id : String) (workouts : List Workout) (env : KVSlot RawWorkout) :
    List Workout × KVSlot RawWorkout × Bool :=
  let next := deleteWorkoutNext id workouts
  match persistStoredWorkoutSessions env next with
  | (env, .ok _) => (next, env, false)
  | (env, .error _) => (next, env, true)

/-- The `clearWorkouts`: memory emptied, then best-effort `clear`. -/
def clearWorkouts (env : KVSlot RawWorkout) :
    List Workout × KVSlot RawWorkout × Bool :=
  match clearStoredWorkoutSessions env with
  | (env, .ok _) => ([], env, false)
  | (env, .error _) => ([], env, true)

/-! ### Hydration normalization (`hydrateWorkouts`) -/

/-- Per-set normalization:
`reps: typeof set.reps === 'number' ? set.reps : 0`, likewise for
`weight`, and `completed: Boolean(set.completed)`. -/
def normalizeSetLog (set : RawSetLog) : SetLog :=
  { reps := match set.reps with | .num n => n | _ => 0
    weight := match set.weight with | .num n => n | _ => 0
    completed := set.completed.truthy }

/-- Per-exercise normalization: a non-array `sets` becomes `[]`. -/
def normalizeWorkoutExercise (exercise : RawWorkoutExercise) : WorkoutExercise :=
  { name := exercise.name
    sets := match exercise.sets with
      | some sets => sets.map normalizeSetLog
      | none => [] }

/-- Per-workout normalization: scalars pass through (`...workout`); a
non-array `exercises` becomes `[]`. -/
def normalizeWorkout (workout : RawWorkout) : Workout :=
  { id := workout.id, planId := workout.planId, date := workout.date,
    startTime := workout.startTime, endTime := workout.endTime,
    duration := workout.duration
    exercises := match workout.exercises with
      | some exercises => exercises.map normalizeWorkoutExercise
      | none => [] }

/-- The `hydrateWorkouts`: load (which never throws — parse failures already
degrade to `[]` inside the adapter), then normalize each element and
replace the in-memory collection wholesale. -/
def hydrateWorkouts (env : KVSlot RawWorkout) : List Workout :=
  (loadStoredWorkoutSessions env).map normalizeWorkout

/-! ## Cascade on plan delete (`confirmDeletePlan`, `app/(tabs)/plans.tsx`) -/

/-- One weekday slot after the cascade: a slot referencing the deleted
plan id becomes `null`, any other slot is untouched. -/
def scrubSlot (planId : String) (slot : Option String) : Option String :=
  if slot = some planId then none else slot

/-- The `nextWeekdays` as built by the `Object.keys` loop of
`confirmDeletePlan`. -/
def scrubWeekdays (planId : String) (w : ScheduleWeekdayAssignment) :
    ScheduleWeekdayAssignment :=
  { monday := scrubSlot planId w.monday
    tuesday := scrubSlot planId w.tuesday
    wednesday := scrubSlot planId w.wednesday
    thursday := scrubSlot planId w.thursday
    friday := scrubSlot planId w.friday
    saturday := scrubSlot planId w.saturday
    sunday := scrubSlot planId w.sunday }

/-- The `didUpdate` flag of the loop: some weekday slot referenced the
deleted plan. -/
def referencesPlan (planId : String) (w : ScheduleWeekdayAssignment) : Bool :=
  w.monday = some planId || w.tuesday = some planId || w.wednesday = some planId ||
  w.thursday = some planId || w.friday = some planId || w.saturday = some planId ||
  w.sunday = some planId

/-- A schedule after the cascade rewrite. -/
def scrubSchedule (planId : String) (schedule : Schedule) : Schedule :=
  { schedule with weekdays := scrubWeekdays planId schedule.weekdays }

/-- The schedule-cascade part of `confirmDeletePlan`: iterate over the
captured `schedules` snapshot and, for each schedule whose weekdays
reference the deleted plan, rewrite it in the store via `updateSchedule`
(whose synchronous memory step is `updateScheduleNext`).  The store's
in-memory collection starts out equal to the snapshot. -/
def confirmDeletePlanSchedules (planId : String) (schedules : List Schedule) :
    List Schedule :=
  schedules.foldl
    (fun current schedule =>
      if referencesPlan planId schedule.weekdays then
        updateScheduleNext (scrubSchedule planId schedule) current
      else current)
    schedules

/-! ## Catalog search (`src/frontend/src/hooks/useSemanticExerciseSearch.ts`) -/

/-- The fields of `ExerciseCatalogItem` consulted by the scorer. -/
structure ExerciseCatalogItem where
  id : String
  name : String
  muscleGroup : String
  filterMuscleGroup : String
  secondaryMuscleGroups : List String
  equipment : List String
  movementPattern : String
  searchIndex : String
  isCompound : Bool
  isBodyweight : Bool
deriving DecidableEq

/-- The `TOKEN_SYNONYMS` table. -/
def tokenSynonyms : String → List String
  | "chest" => ["pec", "pectorals", "push"]
  | "pec" => ["chest"]
  | "back" => ["pull", "lats", "posterior"]
  | "legs" => ["lower", "quads", "glutes", "squat"]
  | "shoulders" => ["delts", "press"]
  | "hamstrings" => ["posterior", "hinge"]
  | "glutes" => ["posterior", "hips"]
  | "full" => ["total", "compound"]
  | "press" => ["push"]
  | "row" => ["pull"]
  | "squat" => ["legs", "hinge"]
  | "deadlift" => ["hinge", "posterior"]
  | "hinge" => ["posterior", "deadlift"]
  | "lunge" => ["single", "split"]
  | "carry" => ["farmer", "loaded"]
  | "rotation" => ["anti-rotation", "twist"]
  | "olympic" => ["power", "explosive"]
  | "arms" => ["biceps", "triceps"]
  | "biceps" => ["arms"]
  | "triceps" => ["arms"]
  | _ => []

/-- Insertion-ordered set insertion (JS `Set.add`). -/
def addUnique (acc : List String) (x : String) : List String :=
  if acc.contains x then acc else acc ++ [x]

/-- The `expandTokens`: seed an insertion-ordered set with the tokens, then for
each original token add its synonyms; one level deep. -/
def expandTokens (tokens : List String) : List String :=
  let seeded := tokens.foldl addUnique []
  tokens.foldl (fun acc token => (tokenSynonyms token).foldl addUnique acc) seeded

/-- One step of the `tokens.reduce` chain of `scoreExercise`: add the
weight of the first matching check to the running score. -/
def scoreStep (exercise : ExerciseCatalogItem) (score : Nat) (token : String) : Nat :=
  if token = "" then score
  else if normalizeSearchText exercise.name = token then score + 10
  else if jsStartsWith (normalizeSearchText exercise.name) token then score + 7
  else if jsIncludes (normalizeSearchText exercise.name) token then score + 6
  else if jsIncludes (normalizeSearchText exercise.muscleGroup) token ||
      jsIncludes (normalizeSearchText exercise.filterMuscleGroup) token then score + 5
  else if (exercise.secondaryMuscleGroups.map normalizeSearchText).any
      (fun target => jsIncludes target token) then score + 4
  else if (exercise.equipment.map normalizeSearchText).any
      (fun item => jsIncludes item token) then score + 4
  else if jsIncludes (normalizeSearchText exercise.movementPattern) token then score + 3
  else if token = "compound" && exercise.isCompound then score + 5
  else if token = "bodyweight" && exercise.isBodyweight then score + 5
  else if jsIncludes exercise.searchIndex token then score + 2
  else score

/-- The `scoreExercise`: fold the scoring chain over the tokens from 0. -/
def scoreExercise (exercise : ExerciseCatalogItem) (tokens : List String) : Nat :=
  if tokens.length = 0 then 0
  else tokens.foldl (scoreStep exercise) 0

/-- The weight a single token contributes in `scoreExercise` (the
`scoreStep` chain, returning the increment instead of accumulating). -/
def tokenWeight (exercise : ExerciseCatalogItem) (token : String) : Nat :=
  if token = "" then 0
  else if normalizeSearchText exercise.name = token then 10
  else if jsStartsWith (normalizeSearchText exercise.name) token then 7
  else if jsIncludes (normalizeSearchText exercise.name) token then 6
  else if jsIncludes (normalizeSearchText exercise.muscleGroup) token ||
      jsIncludes (normalizeSearchText exercise.filterMuscleGroup) token then 5
  else if (exercise.secondaryMuscleGroups.map normalizeSearchText).any
      (fun target => jsIncludes target token) then 4
  else if (exercise.equipment.map normalizeSearchText).any
      (fun item => jsIncludes item token) then 4
  else if jsIncludes (normalizeSearchText exercise.movementPattern) token then 3
  else if token = "compound" && exercise.isCompound then 5
  else if token = "bodyweight" && exercise.isBodyweight then 5
  else if jsIncludes exercise.searchIndex token then 2
  else 0

/-- The per-token weight as the SPECIFICATION words it (for comparison with
the source's `tokenWeight`): the compound/bodyweight flag checks are ranked
between the muscle-group check and the secondary-muscle check. -/
def specTokenWeight (exercise : ExerciseCatalogItem) (token : String) : Nat :=
  if token = "" then 0
  else if normalizeSearchText exercise.name = token then 10
  else if jsStartsWith (normalizeSearchText exercise.name) token then 7
  else if jsIncludes (normalizeSearchText exercise.name) token then 6
  else if jsIncludes (normalizeSearchText exercise.muscleGroup) token ||
      jsIncludes (normalizeSearchText exercise.filterMuscleGroup) token then 5
  else if (token = "compound" && exercise.isCompound) ||
      (token = "bodyweight" && exercise.isBodyweight) then 5
  else if (exercise.secondaryMuscleGroups.map normalizeSearchText).any
      (fun target => jsIncludes target token) then 4
  else if (exercise.equipment.map normalizeSearchText).any
      (fun item => jsIncludes item token) then 4
  else if jsIncludes (normalizeSearchText exercise.movementPattern) token then 3
  else if jsIncludes exercise.searchIndex token then 2
  else 0

/-- The candidate score as the specification words it: sum of the
spec-ordered per-token weights. -/
def specScore (exercise : ExerciseCatalogItem) (tokens : List String) : Nat :=
  (tokens.map (specTokenWeight exercise)).sum

/-- Search options; `limit` defaults to 6, `excludeIds` to `[]`. -/
structure SearchOptions where
  limit : Nat := 6
  excludeIds : List String := []

/-- A scored candidate (`{ exercise, score }`). -/
structure ScoredEntry where
  exercise : ExerciseCatalogItem
  score : Nat
deriving DecidableEq

/-- Stable descending insertion: skip over strictly higher scores, so that
equal scores keep their input order.  This is the guaranteed behaviour of
the ES2019+ stable `Array.prototype.sort` under the comparator
`(a, b) => b.score - a.score`. -/
def insertScored (a : ScoredEntry) : List ScoredEntry → List ScoredEntry
  | [] => [a]
  | b :: rest => if a.score < b.score then b :: insertScored a rest else a :: b :: rest

/-- Stable sort by descending score. -/
def sortScored (entries : List ScoredEntry) : List ScoredEntry :=
  entries.foldr insertScored []

/-- The scored candidate list before sorting: exclusion filter, scoring,
zero-score filter. -/
def scoredCandidates (exercises : List ExerciseCatalogItem) (tokens : List String)
    (excludeIds : List String) : List ScoredEntry :=
  ((exercises.filter (fun exercise => !excludeIds.contains exercise.id)).map
      (fun exercise => ScoredEntry.mk exercise (scoreExercise exercise tokens))).filter
    (fun entry => 0 < entry.score)

/-- Helper for `jsSplitOnSpace`: `acc` holds the reversed characters of
the current field. -/
def splitOnSpaceAux : List Char → List Char → List String
  | [], acc => [String.mk acc.reverse]
  | c :: rest, acc =>
    if c = ' ' then String.mk acc.reverse :: splitOnSpaceAux rest []
    else splitOnSpaceAux rest (c :: acc)

/-- JavaScript `String.prototype.split(' ')`. -/
def jsSplitOnSpace (s : String) : List String :=
  splitOnSpaceAux s.data []

/-- The query tokens: split the normalized query on spaces, drop empties
(`.filter(Boolean)`), expand synonyms. -/
def queryTokens (query : String) : List String :=
  expandTokens ((jsSplitOnSpace (normalizeSearchText query)).filter (fun t => t ≠ ""))

/-- The body of `useSemanticExerciseSearch` (the memoized computation):
empty normalized query short-circuits to `[]`; otherwise filter, score,
drop zero scores, stable-sort descending, truncate, project. -/
def useSemanticExerciseSearch (query : String) (exercises : List ExerciseCatalogItem)
    (options : SearchOptions) : List ExerciseCatalogItem :=
  if normalizeSearchText query = "" then []
  else
    ((sortScored (scoredCandidates exercises (queryTokens query) options.excludeIds)).take
        options.limit).map
      (fun entry => entry.exercise)

/-! ## Weekly tracker (dashboard utilities module)

Local calendar dates are modelled at day granularity: a date is its local
epoch-day number (`Int`).  The source compares dates through
`formatDateToLocalISO`, the local `YYYY-MM-DD` rendering, which is
injective on calendar dates, so equality of the rendered strings is
equality of the day numbers; the `setHours(0,0,0,0)` / `setDate` Date
arithmetic is plain day arithmetic.  JS truthiness of `workout.startTime`
(an epoch-millis number) and `workout.date` (a date string) is modelled by
`Option` presence. -/

/-- Day of week (Sunday = 0) of a local epoch day; day 0 (1970-01-01) was
a Thursday. -/
def dayOfWeek (day : Int) : Int :=
  (day + 4) % 7

/-- The projection of a `Workout` seen by `createWeekTracker`: the local
calendar day of `startTime` (when truthy) and of `date` (when truthy). -/
structure TrackerWorkout where
  startTime : Option Int
  date : Option Int
deriving DecidableEq

/-- The `WeekDayTracker` from `src/types/dashboard.ts`; `day` stands for the
descriptor's local calendar date (the code's `dayISO`). -/
structure WeekDayTracker where
  label : String
  day : Int
  hasWorkout : Bool
  isToday : Bool
deriving DecidableEq

/-- The `dayLabels`. -/
def dayLabels : List String :=
  ["Sun", "Mon", "Tue", "Wed", "Thu", "Fri", "Sat"]

/-- The `getWorkoutLocalISO`: prefer the start-time date, fall back to the
`date` field, else no date. -/
def getWorkoutLocalDay (workout : TrackerWorkout) : Option Int :=
  match workout.startTime with
  | some day => some day
  | none => workout.date

/-- The `createWeekTracker`: compute the Sunday starting the current local
week, collect the workouts' local days, and emit one descriptor per label
(the `dayLabels.map((label, index) => ...)` loop, indexed 0–6). -/
def createWeekTracker (today : Int) (workouts : List TrackerWorkout) :
    List WeekDayTracker :=
  let startOfWeek := today - dayOfWeek today
  let workoutDates := workouts.filterMap getWorkoutLocalDay
  (List.range dayLabels.length).map fun (index : Nat) =>
    let dayDate := startOfWeek + (index : Int)
    { label := dayLabels.getD index ""
      day := dayDate
      hasWorkout := workoutDates.contains dayDate
      isToday := dayDate = today }

/-! ## Plan save handlers (`usePlanSaveHandler.ts` / `usePlanBuilder.ts`) -/

/-- The `SubmitPlanResult` / `SavePlanResult`: the discriminated result of a
plan-save attempt. -/
inductive SubmitPlanResult where
  | success
  | missingName
  | noExercises
  | error
deriving DecidableEq

/-- JavaScript `String.prototype.trim` (ASCII whitespace). -/
def jsTrim (s : String) : String :=
  String.mk (((s.data.dropWhile isJsSpace).reverse.dropWhile isJsSpace).reverse)

/-- The `handleSavePlan` from `usePlanSaveHandler`: validation first (missing
name, then empty exercise list, then re-entrant call), then the `savePlan`
attempt whose failure is caught and reported as `error`.  `persistOk` is
the outcome of the (modelled) `savePlan` call; the returned `Bool` records
whether `savePlan` was invoked at all. -/
def handleSavePlan (planName : String) (selectedExercises : List α)
    (isSaving : Bool) (persistOk : Bool) : SubmitPlanResult × Bool :=
  if jsTrim planName = "" then (.missingName, false)
  else if selectedExercises.length = 0 then (.noExercises, false)
  else if isSaving then (.error, false)
  else if persistOk then (.success, true)
  else (.error, true)

/-- The `submitPlan` from `usePlanBuilder`: same validation-then-attempt shape,
without the re-entrancy guard. -/
def submitPlan (planName : String) (selectedExercises : List α)
    (persistOk : Bool) : SubmitPlanResult × Bool :=
  if jsTrim planName = "" then (.missingName, false)
  else if selectedExercises.length = 0 then (.noExercises, false)
  else if persistOk then (.success, true)
  else (.error, true)

/-! ## Helper lemmas -/

theorem scrubSchedule_id (planId : String) (s : Schedule) :
    (scrubSchedule planId s).id = s.id := rfl

theorem scrubWeekdays_get (planId : String) (w : ScheduleWeekdayAssignment)
    (d : ScheduleDayKey) :
    (scrubWeekdays planId w).get d =
      if w.get d = some planId then none else w.get d := by
  cases d <;> rfl

theorem scrubSchedule_of_not_references (planId : String) (s : Schedule)
    (h : referencesPlan planId s.weekdays = false) :
    scrubSchedule planId s = s := by
  rcases s with ⟨i, n, w⟩
  rcases w with ⟨m, t, we, th, f, sa, su⟩
  simp only [referencesPlan, Bool.or_eq_false_iff, decide_eq_false_iff_not] at h
  obtain ⟨⟨⟨⟨⟨⟨h1, h2⟩, h3⟩, h4⟩, h5⟩, h6⟩, h7⟩ := h
  simp [scrubSchedule, scrubWeekdays, scrubSlot, h1, h2, h3, h4, h5, h6, h7]

theorem map_update_eq_self (s' : Schedule) (l : List Schedule)
    (h : ∀ a ∈ l, a.id ≠ s'.id) :
    l.map (fun existing => if existing.id = s'.id then s' else existing) = l := by
  induction l with
  | nil => rfl
  | cons a l ih =>
    simp only [List.map_cons, if_neg (h a (List.mem_cons_self a l)),
      ih (fun b hb => h b (List.mem_cons_of_mem a hb))]

theorem updateScheduleNext_middle (s' : Schedule) (acc rest : List Schedule)
    (s : Schedule) (hid : s'.id = s.id)
    (hacc : ∀ a ∈ acc, a.id ≠ s.id) (hrest : ∀ a ∈ rest, a.id ≠ s.id) :
    updateScheduleNext s' (acc ++ s :: rest) = acc ++ s' :: rest := by
  unfold updateScheduleNext
  rw [List.map_append, List.map_cons]
  rw [map_update_eq_self s' acc (by simpa [hid] using hacc),
    map_update_eq_self s' rest (by simpa [hid] using hrest)]
  rw [if_pos (by rw [hid])]

theorem confirmDeletePlanSchedules_go (planId : String) :
    ∀ (todo acc : List Schedule),
      (∀ a ∈ acc, ∀ t ∈ todo, a.id ≠ t.id) →
      (todo.map Schedule.id).Nodup →
      todo.foldl
          (fun current schedule =>
            if referencesPlan planId schedule.weekdays then
              updateScheduleNext (scrubSchedule planId schedule) current
            else current)
          (acc ++ todo)
        = acc ++ todo.map (scrubSchedule planId) := by
  intro todo
  induction todo with
  | nil => intro acc _ _; simp
  | cons s rest ih =>
    intro acc hdisj hnodup
    have hnodup' : (rest.map Schedule.id).Nodup := (List.nodup_cons.mp hnodup).2
    have hhead : ∀ a ∈ rest, a.id ≠ s.id := by
      intro a ha heq
      exact (List.nodup_cons.mp hnodup).1 (heq ▸ List.mem_map_of_mem Schedule.id ha)
    have hacc : ∀ a ∈ acc, a.id ≠ s.id :=
      fun a ha => hdisj a ha s (List.mem_cons_self s rest)
    rw [List.foldl_cons]
    by_cases h : referencesPlan planId s.weekdays
    · rw [if_pos h,
        updateScheduleNext_middle (scrubSchedule planId s) acc rest s
          (scrubSchedule_id planId s) hacc hhead]
      have := ih (acc ++ [scrubSchedule planId s])
        (by
          intro a ha t ht
          rcases List.mem_append.mp ha with ha' | ha'
          · exact hdisj a ha' t (List.mem_cons_of_mem s ht)
          · have : a = scrubSchedule planId s := List.mem_singleton.mp ha'
            rw [this, scrubSchedule_id]
            intro hEq
            exact hhead t ht hEq.symm)
        hnodup'
      rw [List.append_cons acc _ rest, this, List.map_cons,
        List.append_cons acc _ (rest.map (scrubSchedule planId))]
    · rw [if_neg h]
      have hscrub : scrubSchedule planId s = s :=
        scrubSchedule_of_not_references planId s (by simpa using h)
      have := ih (acc ++ [s])
        (by
          intro a ha t ht
          rcases List.mem_append.mp ha with ha' | ha'
          · exact hdisj a ha' t (List.mem_cons_of_mem s ht)
          · have : a = s := List.mem_singleton.mp ha'
            rw [this]
            intro hEq
            exact hhead t ht hEq.symm)
        hnodup'
      rw [List.append_cons acc s rest, this, List.map_cons, hscrub,
        List.append_cons acc s (rest.map (scrubSchedule planId))]

theorem mem_insertScored {x a : ScoredEntry} {l : List ScoredEntry} :
    x ∈ insertScored a l ↔ x = a ∨ x ∈ l := by
  induction l with
  | nil => simp [insertScored]
  | cons b rest ih =>
    by_cases h : a.score < b.score
    · simp only [insertScored, if_pos h, List.mem_cons, ih]
      tauto
    · simp only [insertScored, if_neg h, List.mem_cons]

theorem mem_sortScored {x : ScoredEntry} {l : List ScoredEntry} :
    x ∈ sortScored l ↔ x ∈ l := by
  induction l with
  | nil => simp [sortScored]
  | cons a rest ih =>
    show x ∈ insertScored a (sortScored rest) ↔ _
    rw [mem_insertScored, ih]
    simp

theorem pairwise_insertScored {a : ScoredEntry} {l : List ScoredEntry}
    (h : l.Pairwise (fun x y => y.score ≤ x.score)) :
    (insertScored a l).Pairwise (fun x y => y.score ≤ x.score) := by
  induction l with
  | nil => simp [insertScored]
  | cons b rest ih =>
    rcases List.pairwise_cons.mp h with ⟨hb, hrest⟩
    by_cases hc : a.score < b.score
    · simp only [insertScored, if_pos hc]
      refine List.pairwise_cons.mpr ⟨?_, ih hrest⟩
      intro x hx
      rcases mem_insertScored.mp hx with rfl | hx'
      · exact Nat.le_of_lt hc
      · exact hb x hx'
    · simp only [insertScored, if_neg hc]
      refine List.pairwise_cons.mpr ⟨?_, h⟩
      intro x hx
      rcases List.mem_cons.mp hx with rfl | hx'
      · omega
      · have := hb x hx'
        omega

theorem sortScored_pairwise (l : List ScoredEntry) :
    (sortScored l).Pairwise (fun x y => y.score ≤ x.score) := by
  induction l with
  | nil => simp [sortScored]
  | cons a rest ih => exact pairwise_insertScored ih

theorem insertScored_filter (a : ScoredEntry) (l : List ScoredEntry) (s : Nat) :
    (insertScored a l).filter (fun e => e.score = s) =
      (a :: l).filter (fun e => e.score = s) := by
  induction l with
  | nil => rfl
  | cons b rest ih =>
    by_cases hc : a.score < b.score
    · simp only [insertScored, if_pos hc, List.filter_cons, ih]
      by_cases ha : a.score = s
      · have hb : ¬ b.score = s := by omega
        simp [ha, hb]
      · simp [ha]
    · simp only [insertScored, if_neg hc]

theorem sortScored_filter (l : List ScoredEntry) (s : Nat) :
    (sortScored l).filter (fun e => e.score = s) =
      l.filter (fun e => e.score = s) := by
  induction l with
  | nil => rfl
  | cons a rest ih =>
    show (insertScored a (sortScored rest)).filter _ = _
    rw [insertScored_filter, List.filter_cons, List.filter_cons, ih]

theorem mem_scoredCandidates {entry : ScoredEntry}
    {exercises : List ExerciseCatalogItem} {tokens excludeIds : List String}
    (h : entry ∈ scoredCandidates exercises tokens excludeIds) :
    entry.score = scoreExercise entry.exercise tokens ∧
    0 < entry.score ∧
    excludeIds.contains entry.exercise.id = false := by
  unfold scoredCandidates at h
  rcases List.mem_filter.mp h with ⟨hmap, hscore⟩
  rcases List.mem_map.mp hmap with ⟨ex, hex, rfl⟩
  rcases List.mem_filter.mp hex with ⟨_, hexc⟩
  refine ⟨rfl, by simpa using hscore, by simpa using hexc⟩

theorem countP_range_eq_single (k n : Nat) :
    (List.range n).countP (fun i => decide (i = k)) = if k < n then 1 else 0 := by
  induction n with
  | zero => simp
  | succ n ih =>
    rw [List.range_succ, List.countP_append, ih]
    by_cases h : k < n
    · have hne : ¬ (n = k) := by omega
      have hlt : k < n + 1 := by omega
      simp [List.countP_cons, hne, h, hlt]
    · by_cases he : n = k
      · have hlt : k < n + 1 := by omega
        simp [List.countP_cons, he, h, hlt]
      · have hge : ¬ k < n + 1 := by omega
        simp [List.countP_cons, he, h, hge]

/-! ## Claims -/

/-- C5: deleting a plan rewrites each schedule by nulling exactly the
weekday slots that referenced the deleted plan id (provided schedule ids
are unique, the stated data-model invariant): the store ends up at the
slot-wise scrub of every schedule; a slot not referencing the plan is
unchanged; a schedule referencing it in no slot is entirely unchanged. -/
theorem C5_delete_plan_cascades (planId : String) (schedules : List Schedule)
    (hids : (schedules.map Schedule.id).Nodup) :
    confirmDeletePlanSchedules planId schedules =
      schedules.map (scrubSchedule planId) ∧
    (∀ s d, ((scrubSchedule planId s).weekdays).get d =
      if s.weekdays.get d = some planId then none else s.weekdays.get d) ∧
    (∀ s, referencesPlan planId s.weekdays = false → scrubSchedule planId s = s) := by
  refine ⟨?_, ?_, ?_⟩
  · have := confirmDeletePlanSchedules_go planId schedules []
      (by intro a ha; simp at ha) hids
    simpa [confirmDeletePlanSchedules] using this
  · intro s d
    exact scrubWeekdays_get planId s.weekdays d
  · intro s h
    exact scrubSchedule_of_not_references planId s h

/-- C6 counterexample: on a candidate whose movement pattern contains the
word "compound" and which is flagged compound, the source scores the token
"compound" with the movement-pattern weight 3, while the claimed precedence
(flag match 5 ranked above secondary/equipment/movement matches) yields 5. -/
theorem C6_counterexample_movement_beats_flag :
    scoreExercise ⟨"cex", "x", "chest", "chest", [], [], "compound", "", true, false⟩
        ["compound"] = 3 ∧
      specScore ⟨"cex", "x", "chest", "chest", [], [], "compound", "", true, false⟩
        ["compound"] = 5 := by
  constructor <;> decide

/-- C6 (amended): a candidate's score is the sum over tokens of the weight
of the first matching check in the source's precedence order — exact name
10 > name prefix 7 > name substring 6 > primary/filter muscle-group
substring 5 > secondary-muscle substring 4 > equipment substring 4 >
movement-pattern substring 3 > compound/bodyweight flag (token equal to
the literal keyword) 5 > search-index substring 2 > no match 0 — i.e. the
flag checks rank after the field-substring checks, not above the
secondary-muscle check as the claim orders them. -/
theorem C6_score_is_sum_of_token_weights (exercise : ExerciseCatalogItem)
    (tokens : List String) :
    scoreExercise exercise tokens = (tokens.map (tokenWeight exercise)).sum := by
  have hpoint : ∀ (score : Nat) (token : String),
      scoreStep exercise score token = score + tokenWeight exercise token := by
    intro score token
    unfold scoreStep tokenWeight
    by_cases h1 : token = ""
    · rw [if_pos h1, if_pos h1, Nat.add_zero]
    · rw [if_neg h1, if_neg h1]
      by_cases h2 : normalizeSearchText exercise.name = token
      · rw [if_pos h2, if_pos h2]
      · rw [if_neg h2, if_neg h2]
        by_cases h3 : jsStartsWith (normalizeSearchText exercise.name) token = true
        · rw [if_pos h3, if_pos h3]
        · rw [if_neg h3, if_neg h3]
          by_cases h4 : jsIncludes (normalizeSearchText exercise.name) token = true
          · rw [if_pos h4, if_pos h4]
          · rw [if_neg h4, if_neg h4]
            by_cases h5 : (jsIncludes (normalizeSearchText exercise.muscleGroup) token ||
                jsIncludes (normalizeSearchText exercise.filterMuscleGroup) token) = true
            · rw [if_pos h5, if_pos h5]
            · rw [if_neg h5, if_neg h5]
              by_cases h6 : ((exercise.secondaryMuscleGroups.map normalizeSearchText).any
                  (fun target => jsIncludes target token)) = true
              · rw [if_pos h6, if_pos h6]
              · rw [if_neg h6, if_neg h6]
                by_cases h7 : ((exercise.equipment.map normalizeSearchText).any
                    (fun item => jsIncludes item token)) = true
                · rw [if_pos h7, if_pos h7]
                · rw [if_neg h7, if_neg h7]
                  by_cases h8 : jsIncludes
                      (normalizeSearchText exercise.movementPattern) token = true
                  · rw [if_pos h8, if_pos h8]
                  · rw [if_neg h8, if_neg h8]
                    by_cases h9 : (token = "compound" && exercise.isCompound) = true
                    · rw [if_pos h9, if_pos h9]
                    · rw [if_neg h9, if_neg h9]
                      by_cases h10 :
                          (token = "bodyweight" && exercise.isBodyweight) = true
                      · rw [if_pos h10, if_pos h10]
                      · rw [if_neg h10, if_neg h10]
                        by_cases h11 : jsIncludes exercise.searchIndex token = true
                        · rw [if_pos h11, if_pos h11]
                        · rw [if_neg h11, if_neg h11, Nat.add_zero]
  have hstep : ∀ (ts : List String) (start : Nat),
      ts.foldl (scoreStep exercise) start =
        start + (ts.map (tokenWeight exercise)).sum := by
    intro ts
    induction ts with
    | nil => intro start; simp
    | cons t ts ih =>
      intro start
      rw [List.foldl_cons, hpoint, ih, List.map_cons, List.sum_cons, Nat.add_assoc]
  rcases tokens with _ | ⟨t, ts⟩
  · rfl
  · rw [scoreExercise, if_neg (by simp), hstep]
    simp

/-- Witness for C5: two schedules, the first referencing the deleted plan
on Monday and Wednesday, the second not referencing it at all. -/
theorem C5_delete_plan_cascades_witness :
    confirmDeletePlanSchedules "p1"
        [⟨"s1", "A", ⟨some "p1", some "p2", some "p1", none, none, none, none⟩⟩,
         ⟨"s2", "B", ⟨some "p2", none, none, none, none, none, none⟩⟩] =
      [⟨"s1", "A", ⟨none, some "p2", none, none, none, none, none⟩⟩,
       ⟨"s2", "B", ⟨some "p2", none, none, none, none, none, none⟩⟩] := by
  have h := (C5_delete_plan_cascades "p1"
    [⟨"s1", "A", ⟨some "p1", some "p2", some "p1", none, none, none, none⟩⟩,
     ⟨"s2", "B", ⟨some "p2", none, none, none, none, none, none⟩⟩] (by decide)).1
  rw [h]; rfl

/-- C1: for both entity stores present in the source (schedules and
workout sessions), `add` makes the in-memory collection `[x, ...C]` —
the new item is inserted at index 0, never appended — and this value is
the synchronous memory state published before the persist call, which the
persist phase never modifies (the final memory equals `[x] ++ C` for every
storage environment, including failing ones). -/
theorem C1_add_prepends_synchronously (x : Schedule) (C : List Schedule)
    (env : KVSlot Schedule) (w : Workout) (W : List Workout)
    (envW : KVSlot RawWorkout) :
    addScheduleNext x C = [x] ++ C ∧
    (addSchedule x C env).1 = [x] ++ C ∧
    addWorkoutNext w W = [w] ++ W ∧
    (addWorkout w W envW).1 = [w] ++ W := by
  refine ⟨rfl, ?_, rfl, ?_⟩
  · simp only [addSchedule]
    split <;> rfl
  · simp only [addWorkout]
    split <;> rfl

/-- C2: persisting a schedule collection and then loading from the same
slot (no external mutation in between, storage available and healthy)
yields the collection filtered to the entries with a non-empty `id`. -/
theorem C2_persist_load_roundtrip (items : List Schedule) (env : KVSlot Schedule)
    (hav : env.available = true) (hw : env.writeFails = false)
    (hr : env.readFails = false) :
    loadStoredSchedules (persistStoredSchedules env items).1 =
      items.filter (fun schedule => schedule.id ≠ "") := by
  simp [persistStoredSchedules, loadStoredSchedules, parseSchedules, hav, hw, hr]

/-- Witness for C2 at a concrete environment and collection. -/
theorem C2_persist_load_roundtrip_witness :
    loadStoredSchedules
        (persistStoredSchedules ⟨true, false, false, none⟩
          [⟨"s1", "Push", ⟨none, none, none, none, none, none, none⟩⟩,
           ⟨"", "Ghost", ⟨none, none, none, none, none, none, none⟩⟩]).1 =
      [⟨"s1", "Push", ⟨none, none, none, none, none, none, none⟩⟩] := by
  have h := C2_persist_load_roundtrip
    [⟨"s1", "Push", ⟨none, none, none, none, none, none, none⟩⟩,
     ⟨"", "Ghost", ⟨none, none, none, none, none, none, none⟩⟩]
    ⟨true, false, false, none⟩ rfl rfl rfl
  rw [h]; rfl

/-- C3: when the underlying write fails (storage available), each persist
adapter raises its typed `Unable to persist <entity>` error, and every
mutating store operation catches it, logs it (flag `true`), completes
normally and keeps the already-applied in-memory change, with the durable
slot left untouched. -/
theorem C3_write_failure_logged_no_rollback
    (env : KVSlot Schedule) (envW : KVSlot RawWorkout)
    (x s : Schedule) (C : List Schedule) (i : String)
    (w u : Workout) (W : List Workout) (j : String)
    (hav : env.available = true) (hw : env.writeFails = true)
    (havW : envW.available = true) (hwW : envW.writeFails = true) :
    (∀ items, persistStoredSchedules env items =
      (env, .error (.msg "Unable to persist schedules"))) ∧
    (∀ ws, persistStoredWorkoutSessions envW ws =
      (envW, .error (.msg "Unable to persist workouts"))) ∧
    addSchedule x C env = (addScheduleNext x C, env, true) ∧
    deleteSchedule i C env = (deleteScheduleNext i C, env, true) ∧
    updateSchedule s C env = (updateScheduleNext s C, env, true) ∧
    addWorkout w W envW = (addWorkoutNext w W, envW, true) ∧
    updateWorkout u W envW = (updateWorkoutNext u W, envW, true) ∧
    deleteWorkout j W envW = (deleteWorkoutNext j W, envW, true) ∧
    clearWorkouts envW = ([], envW, true) := by
  refine ⟨fun items => ?_, fun ws => ?_, ?_, ?_, ?_, ?_, ?_, ?_, ?_⟩ <;>
    simp [persistStoredSchedules, persistStoredWorkoutSessions,
      clearStoredWorkoutSessions, addSchedule, deleteSchedule, updateSchedule,
      addWorkout, updateWorkout, deleteWorkout, clearWorkouts, hav, hw, havW, hwW]

/-- Witness for C3 at a concrete failing environment. -/
theorem C3_write_failure_logged_no_rollback_witness :
    addSchedule ⟨"s1", "Push", ⟨none, none, none, none, none, none, none⟩⟩ []
        ⟨true, false, true, none⟩ =
      ([⟨"s1", "Push", ⟨none, none, none, none, none, none, none⟩⟩],
        ⟨true, false, true, none⟩, true) :=
  (C3_write_failure_logged_no_rollback
    ⟨true, false, true, none⟩ ⟨true, false, true, none⟩
    ⟨"s1", "Push", ⟨none, none, none, none, none, none, none⟩⟩
    ⟨"s1", "Push", ⟨none, none, none, none, none, none, none⟩⟩ [] "s1"
    ⟨"w1", none, "", 1, none, none, []⟩ ⟨"w1", none, "", 1, none, none, []⟩ [] "w1"
    rfl rfl rfl rfl).2.2.1

/-- C4: hydration of persisted workouts is total and defaulting: the
hydrated collection is the element-wise normalization of the loaded one;
a set record whose `reps`/`weight` is not a number gets `0`; `completed`
is coerced by JS truthiness (`false` when missing); non-array `sets` or
`exercises` fields become `[]`; an unparseable payload is treated as no
data. -/
theorem C4_hydrate_never_throws_defaults (env : KVSlot RawWorkout)
    (set : RawSetLog) (exercise : RawWorkoutExercise) (workout : RawWorkout)
    (hreps : set.reps.isNumber = false) (hweight : set.weight.isNumber = false)
    (hsets : exercise.sets = none) (hex : workout.exercises = none) :
    hydrateWorkouts env = (loadStoredWorkoutSessions env).map normalizeWorkout ∧
    (normalizeSetLog set).reps = 0 ∧
    (normalizeSetLog set).weight = 0 ∧
    (normalizeSetLog set).completed = set.completed.truthy ∧
    (normalizeSetLog { set with completed := .undefined }).completed = false ∧
    (normalizeWorkoutExercise exercise).sets = [] ∧
    (normalizeWorkout workout).exercises = [] ∧
    hydrateWorkouts { env with slot := some .unparseable } = [] := by
  refine ⟨rfl, ?_, ?_, rfl, rfl, ?_, ?_, ?_⟩
  · cases h : set.reps <;> simp_all [normalizeSetLog, JsVal.isNumber]
  · cases h : set.weight <;> simp_all [normalizeSetLog, JsVal.isNumber]
  · simp [normalizeWorkoutExercise, hsets]
  · simp [normalizeWorkout, hex]
  · unfold hydrateWorkouts loadStoredWorkoutSessions
    rcases hA : env.available <;> rcases hR : env.readFails <;>
      simp [parseWorkouts, hA, hR]

/-- Witness for C4 at a concrete malformed payload. -/
theorem C4_hydrate_never_throws_defaults_witness :
    (normalizeSetLog ⟨.str "12", .null, .undefined⟩).reps = 0 :=
  (C4_hydrate_never_throws_defaults ⟨true, false, false, none⟩
    ⟨.str "12", .null, .undefined⟩ ⟨"Bench", none⟩
    ⟨"w1", none, "", 1, none, none, none⟩ rfl rfl rfl rfl).2.1

/-- C9: a plan-save attempt returns a discriminated result, never throws:
`missing-name` on a blank trimmed name and `no-exercises` on an empty
exercise list (both without invoking persistence), `success` when the
persist completes, `error` when it fails — for both `handleSavePlan`
(which additionally reports `error` on a re-entrant call) and
`submitPlan`. -/
theorem C9_save_returns_discriminated_result {α : Type}
    (planName : String) (exs : List α) (isSaving persistOk : Bool) :
    (jsTrim planName = "" →
      handleSavePlan planName exs isSaving persistOk = (.missingName, false) ∧
      submitPlan planName exs persistOk = (.missingName, false)) ∧
    (jsTrim planName ≠ "" → exs = [] →
      handleSavePlan planName exs isSaving persistOk = (.noExercises, false) ∧
      submitPlan planName exs persistOk = (.noExercises, false)) ∧
    (jsTrim planName ≠ "" → exs ≠ [] → isSaving = false → persistOk = true →
      handleSavePlan planName exs isSaving persistOk = (.success, true) ∧
      submitPlan planName exs persistOk = (.success, true)) ∧
    (jsTrim planName ≠ "" → exs ≠ [] → isSaving = false → persistOk = false →
      handleSavePlan planName exs isSaving persistOk = (.error, true) ∧
      submitPlan planName exs persistOk = (.error, true)) := by
  refine ⟨fun h => ?_, fun h he => ?_, fun h he hs hp => ?_, fun h he hs hp => ?_⟩ <;>
    simp_all [handleSavePlan, submitPlan, List.length_eq_zero]

/-- Witness for C9 at concrete inputs. -/
theorem C9_save_returns_discriminated_result_witness :
    handleSavePlan "  Leg Day " ([0] : List Nat) false true = (.success, true) ∧
    handleSavePlan "   " ([0] : List Nat) false true = (.missingName, false) := by
  constructor
  · exact ((C9_save_returns_discriminated_result "  Leg Day " [0] false true).2.2.1
      (by decide) (by decide) rfl rfl).1
  · exact ((C9_save_returns_discriminated_result "   " [0] false true).1 (by decide)).1

/-- C10: the storage-level `savePlan` removes any stored plan with the
same id and appends the new plan at the end of the durable collection;
the write succeeds, the appended plan is the last element, and no earlier
element shares its id (so a re-saved plan moves to the last position). -/
theorem C10_savePlan_appends_at_end (plan : WorkoutPlan) (env : KVSlot WorkoutPlan)
    (hav : env.available = true) (hw : env.writeFails = false) :
    (savePlan plan env).1.slot =
      some (.arr ((getPlans env).filter
        (fun existing => existing.id ≠ plan.id) ++ [plan])) ∧
    (savePlan plan env).2 = .ok () ∧
    ((getPlans env).filter (fun existing => existing.id ≠ plan.id) ++ [plan]).getLast?
      = some plan ∧
    ∀ q ∈ (getPlans env).filter (fun existing => existing.id ≠ plan.id),
      q.id ≠ plan.id := by
  refine ⟨?_, ?_, ?_, ?_⟩
  · simp [savePlan, hav, hw]
  · simp [savePlan, hav, hw]
  · rw [List.getLast?_append]; rfl
  · intro q hq
    simpa using (List.mem_filter.mp hq).2

/-- Witness for C10 at a concrete environment holding an older version of
the plan plus an unrelated plan. -/
theorem C10_savePlan_appends_at_end_witness :
    (savePlan ⟨"p1", "Push v2", [], "t1"⟩
        ⟨true, false, false,
          some (.arr [⟨"p1", "Push", [], "t0"⟩, ⟨"p2", "Pull", [], "t0"⟩])⟩).1.slot =
      some (.arr [⟨"p2", "Pull", [], "t0"⟩, ⟨"p1", "Push v2", [], "t1"⟩]) := by
  have h := (C10_savePlan_appends_at_end ⟨"p1", "Push v2", [], "t1"⟩
    ⟨true, false, false,
      some (.arr [⟨"p1", "Push", [], "t0"⟩, ⟨"p2", "Pull", [], "t0"⟩])⟩ rfl rfl).1
  rw [h]; rfl

/-- C7: the search pipeline returns `[]` on an empty/whitespace-only
query; every returned candidate escapes the exclusion set and has a
positive score; the result is the truncation (to the requested limit,
default 6) of the stable descending sort of the scored candidates —
sorted by score, with equal-score entries kept in catalog order. -/
theorem C7_search_filters_sorts_truncates (query : String)
    (exercises : List ExerciseCatalogItem) (options : SearchOptions) :
    (normalizeSearchText query = "" →
      useSemanticExerciseSearch query exercises options = []) ∧
    (useSemanticExerciseSearch query exercises options).length ≤ options.limit ∧
    (∀ e ∈ useSemanticExerciseSearch query exercises options,
      options.excludeIds.contains e.id = false ∧
      0 < scoreExercise e (queryTokens query)) ∧
    ((sortScored (scoredCandidates exercises (queryTokens query)
        options.excludeIds)).take options.limit).Pairwise
      (fun a b => b.score ≤ a.score) ∧
    (∀ entry ∈ sortScored (scoredCandidates exercises (queryTokens query)
        options.excludeIds),
      entry.score = scoreExercise entry.exercise (queryTokens query)) ∧
    (∀ s, (sortScored (scoredCandidates exercises (queryTokens query)
          options.excludeIds)).filter (fun e => e.score = s) =
      (scoredCandidates exercises (queryTokens query)
          options.excludeIds).filter (fun e => e.score = s)) ∧
    (normalizeSearchText query ≠ "" →
      useSemanticExerciseSearch query exercises options =
        ((sortScored (scoredCandidates exercises (queryTokens query)
            options.excludeIds)).take options.limit).map
          (fun entry => entry.exercise)) ∧
    ({} : SearchOptions).limit = 6 := by
  refine ⟨?_, ?_, ?_, ?_, ?_, ?_, ?_, rfl⟩
  · intro h
    simp [useSemanticExerciseSearch, h]
  · by_cases h : normalizeSearchText query = ""
    · simp [useSemanticExerciseSearch, h]
    · rw [useSemanticExerciseSearch, if_neg h, List.length_map]
      exact List.length_take_le _ _
  · intro e he
    by_cases h : normalizeSearchText query = ""
    · rw [useSemanticExerciseSearch, if_pos h] at he
      exact absurd he (List.not_mem_nil e)
    · rw [useSemanticExerciseSearch, if_neg h] at he
      rcases List.mem_map.mp he with ⟨entry, htake, rfl⟩
      have hmem : entry ∈ sortScored (scoredCandidates exercises
          (queryTokens query) options.excludeIds) :=
        List.take_subset _ _ htake
      have hc := mem_scoredCandidates (mem_sortScored.mp hmem)
      exact ⟨hc.2.2, hc.1 ▸ hc.2.1⟩
  · exact List.Pairwise.sublist (List.take_sublist _ _) (sortScored_pairwise _)
  · intro entry hmem
    exact (mem_scoredCandidates (mem_sortScored.mp hmem)).1
  · intro s
    exact sortScored_filter _ s
  · intro h
    rw [useSemanticExerciseSearch, if_neg h]

/-- Witness for C7: a whitespace-only query yields no results, and the
query "bench" against a one-item catalog returns that item (name-prefix
match). -/
theorem C7_search_filters_sorts_truncates_witness :
    useSemanticExerciseSearch "   " [] {} = [] ∧
    useSemanticExerciseSearch "bench"
        [⟨"bp", "Bench Press", "Chest", "Chest", [], ["Barbell"], "push", "", true,
          false⟩] {} =
      [⟨"bp", "Bench Press", "Chest", "Chest", [], ["Barbell"], "push", "", true,
        false⟩] := by
  constructor
  · exact (C7_search_filters_sorts_truncates "   " [] {}).1 (by decide)
  · have h := (C7_search_filters_sorts_truncates "bench"
      [⟨"bp", "Bench Press", "Chest", "Chest", [], ["Barbell"], "push", "", true,
        false⟩] {}).2.2.2.2.2.2.1 (by decide)
    rw [h]
    decide


/-- C8: for every fixed local "today" (as an epoch day) and every workout
list, the weekly tracker returns exactly 7 descriptors; exactly one is
flagged `isToday` (namely the one whose day equals today); `hasWorkout`
holds exactly when some workout's local calendar date equals the
descriptor's date; and the descriptors cover the 7 consecutive days of the
current local week starting at its Sunday (descriptor `i` falls on weekday
`i`, with Sunday = 0). -/
theorem C8_week_tracker_shape (today : Int) (workouts : List TrackerWorkout) :
    (createWeekTracker today workouts).length = 7 ∧
    (createWeekTracker today workouts).countP (fun d => d.isToday) = 1 ∧
    (∀ d ∈ createWeekTracker today workouts,
      (d.hasWorkout = true ↔ ∃ w ∈ workouts, getWorkoutLocalDay w = some d.day) ∧
      (d.isToday = true ↔ d.day = today)) ∧
    (createWeekTracker today workouts).map (fun d => d.day) =
      (List.range 7).map (fun i => today - dayOfWeek today + (i : Int)) ∧
    (∀ i ∈ List.range 7, dayOfWeek (today - dayOfWeek today + (i : Int)) = i) := by
  have hr0 : 0 ≤ dayOfWeek today := Int.emod_nonneg _ (by norm_num)
  have hr7 : dayOfWeek today < 7 := Int.emod_lt_of_pos _ (by norm_num)
  refine ⟨?_, ?_, ?_, ?_, ?_⟩
  · simp [createWeekTracker, dayLabels]
  · rw [createWeekTracker]
    rw [List.countP_map]
    have hcongr : ∀ i ∈ List.range dayLabels.length,
        ((fun d => d.isToday) ∘ fun (index : Nat) =>
            ({ label := dayLabels.getD index ""
               day := today - dayOfWeek today + (index : Int)
               hasWorkout := (workouts.filterMap getWorkoutLocalDay).contains
                 (today - dayOfWeek today + (index : Int))
               isToday := decide (today - dayOfWeek today + (index : Int) = today) }
              : WeekDayTracker)) i = true ↔
          (fun i => decide (i = (dayOfWeek today).toNat)) i = true := by
      intro i hi
      have hi7 : i < 7 := by simpa [dayLabels] using List.mem_range.mp hi
      simp only [Function.comp]
      constructor
      · intro h
        have := of_decide_eq_true h
        simp only [decide_eq_true_eq]
        simp only [dayOfWeek] at this hr0 hr7 ⊢
        omega
      · intro h
        have := of_decide_eq_true h
        simp only [decide_eq_true_eq]
        simp only [dayOfWeek] at this hr0 hr7 ⊢
        omega
    rw [List.countP_congr hcongr, countP_range_eq_single]
    have : (dayOfWeek today).toNat < 7 := by omega
    simp [dayLabels, this]
  · intro d hd
    rw [createWeekTracker] at hd
    rcases List.mem_map.mp hd with ⟨i, _, rfl⟩
    constructor
    · show (List.filterMap getWorkoutLocalDay workouts).contains _ = true ↔ _
      rw [List.elem_iff, List.mem_filterMap]
    · simp
  · rw [createWeekTracker, List.map_map]
    have : dayLabels.length = 7 := rfl
    rw [this]
    rfl
  · intro i hi
    have hi7 : i < 7 := List.mem_range.mp hi
    simp only [dayOfWeek] at hr0 hr7 ⊢
    omega

end Hercules
